import Mathlib

/-!
Verification development for the sixteen-segment display package
(draw/segdisp/sixteen/sixteen.go).  The Go code is shallowly embedded:
pure functions become Lean functions, the mutable Display is passed
explicitly, and the external collaborators (braille canvas, segment
rasterizer, area ratio utility) are modelled from the specification
since their sources are outside the reviewed tree.
-/

namespace Sixteen

/-- image.Rectangle from the Go standard library: two corner points. -/
structure Rect where
  minX : Int
  minY : Int
  maxX : Int
  maxY : Int
deriving DecidableEq, Repr

/-- Rect.Dx: width of the rectangle, Max.X - Min.X. -/
def Rect.Dx (r : Rect) : Int := r.maxX - r.minX

/-- Rect.Dy: height of the rectangle, Max.Y - Min.Y. -/
def Rect.Dy (r : Rect) : Int := r.maxY - r.minY

/-- Modelled from the spec: braille.ColMult, the number of addressable
sub-resolution columns per character cell (the spec fixes a 2x4 dot grid
per cell); the braille package itself is not under the reviewed tree. -/
def ColMult : Int := 2

/-- Modelled from the spec: braille.RowMult, the number of addressable
sub-resolution rows per character cell (2x4 dot grid per cell). -/
def RowMult : Int := 4

/-- Ceiling division for a positive divisor, used to model
int(math.Ceil(float64 a / b)) on the nonnegative values that occur
(Int division in Lean rounds toward negative infinity for the positive
divisors used here). -/
def ceilDivP (a b : Int) : Int := (a + b - 1) / b

/-- Modelled from the spec: area.WithRatio, the area ratio utility.  Given
a rectangle and a target width:height ratio it returns the largest
same-origin sub-rectangle whose size matches that ratio exactly. -/
def WithRatio (ar : Rect) (ratio : Int × Int) : Rect :=
  let k := max 0 (min (ar.Dx / ratio.1) (ar.Dy / ratio.2))
  ⟨ar.minX, ar.minY, ar.minX + ratio.1 * k, ar.minY + ratio.2 * k⟩

/-- MinCols: the smallest valid amount of columns in a cell area. -/
def MinCols : Int := 6

/-- MinRows: the smallest valid amount of rows in a cell area. -/
def MinRows : Int := 5

/-- aspectRatio: the desired aspect ratio of a single segment display. -/
def aspectRatio : Int × Int := (3, 5)

/-- Required, translated from the source.  none models the
"cell area is too small" (AreaTooSmall) error return. -/
def Required (cellArea : Rect) : Option Rect :=
  if cellArea.Dx < MinCols ∨ cellArea.Dy < MinRows then
    none
  else
    let bcAr : Rect :=
      ⟨cellArea.minX, cellArea.minY, cellArea.maxX * ColMult, cellArea.maxY * RowMult⟩
    let bcArAdj := WithRatio bcAr aspectRatio
    let needCols := ceilDivP bcArAdj.Dx ColMult
    let needRows := ceilDivP bcArAdj.Dy RowMult
    some ⟨cellArea.minX, cellArea.minY, cellArea.minX + needCols, cellArea.minY + needRows⟩

example : Required ⟨0, 0, 6, 5⟩ = some ⟨0, 0, 6, 5⟩ := by decide
example : Required ⟨0, 0, 5, 5⟩ = none := by decide
example : Required ⟨0, 0, 6, 4⟩ = none := by decide
example : Required ⟨10, 10, 16, 15⟩ = some ⟨10, 10, 21, 19⟩ := by decide
example : Required ⟨10, 10, 21, 19⟩ = some ⟨10, 10, 25, 23⟩ := by decide

/-- Segment represents a single segment in the display.  The source
declares it as an integer type with iota constants. -/
abbrev Segment := Int

/-- segmentUnknown, the sentinel below the valid range (iota value 0). -/
def segmentUnknown : Segment := 0

/-- A1 segment constant (iota value 1). -/
def A1 : Segment := 1

/-- A2 segment constant. -/
def A2 : Segment := 2

/-- B segment constant. -/
def B : Segment := 3

/-- C segment constant. -/
def C : Segment := 4

/-- D1 segment constant. -/
def D1 : Segment := 5

/-- D2 segment constant. -/
def D2 : Segment := 6

/-- E segment constant. -/
def E : Segment := 7

/-- F segment constant. -/
def F : Segment := 8

/-- G1 segment constant. -/
def G1 : Segment := 9

/-- G2 segment constant. -/
def G2 : Segment := 10

/-- H segment constant. -/
def H : Segment := 11

/-- J segment constant. -/
def J : Segment := 12

/-- K segment constant. -/
def K : Segment := 13

/-- L segment constant. -/
def L : Segment := 14

/-- M segment constant. -/
def M : Segment := 15

/-- N segment constant. -/
def N : Segment := 16

/-- segmentMax, the sentinel above the valid range, used for validation. -/
def segmentMax : Segment := 17

/-- characterSegments maps characters that can be displayed to their
segments, translated entry for entry from the source map literal
(the entry for space maps to the nil slice, i.e. the empty list). -/
def characterSegments : List (Char × List Segment) := [
  (' ', []),
  ('!', [B, C]),
  ('"', [J, B]),
  ('#', [J, B, G1, G2, M, C, D1, D2]),
  ('$', [A1, A2, F, J, G1, G2, M, C, D1, D2]),
  ('%', [A1, F, J, K, G1, G2, N, M, C, D2]),
  ('&', [A1, H, J, G1, E, L, D1, D2]),
  ('\'', [J]),
  ('(', [K, L]),
  (')', [H, N]),
  ('*', [H, J, K, G1, G2, N, M, L]),
  ('+', [J, G1, G2, M]),
  (',', [N]),
  ('-', [G1, G2]),
  ('/', [N, K]),
  ('0', [A1, A2, F, K, B, E, N, C, D1, D2]),
  ('1', [K, B, C]),
  ('2', [A1, A2, B, G1, G2, E, D1, D2]),
  ('3', [A1, A2, B, G2, C, D1, D2]),
  ('4', [F, B, G1, G2, C]),
  ('5', [A1, A2, F, G1, L, D1, D2]),
  ('6', [A1, A2, F, G1, G2, E, C, D1, D2]),
  ('7', [A1, A2, B, C]),
  ('8', [A1, A2, F, B, G1, G2, E, C, D1, D2]),
  ('9', [A1, A2, F, B, G1, G2, C, D1, D2]),
  (':', [J, M]),
  (';', [J, N]),
  ('<', [K, G1, L]),
  ('=', [G1, G2, D1, D2]),
  ('>', [H, G2, N]),
  ('?', [A1, A2, B, G2, M]),
  ('@', [A1, A2, F, J, B, G2, E, D1, D2]),
  ('A', [A1, A2, F, B, G1, G2, E, C]),
  ('B', [A1, A2, J, B, G2, M, C, D1, D2]),
  ('C', [A1, A2, F, E, D1, D2]),
  ('D', [A1, A2, J, B, M, C, D1, D2]),
  ('E', [A1, A2, F, G1, E, D1, D2]),
  ('F', [A1, A2, F, G1, E]),
  ('G', [A1, A2, F, G2, E, C, D1, D2]),
  ('H', [F, B, G1, G2, E, C]),
  ('I', [A1, A2, J, M, D1, D2]),
  ('J', [B, E, C, D1, D2]),
  ('K', [F, K, G1, E, L]),
  ('L', [F, E, D1, D2]),
  ('M', [F, H, K, B, E, C]),
  ('N', [F, H, B, E, L, C]),
  ('O', [A1, A2, F, B, E, C, D1, D2]),
  ('P', [A1, A2, F, B, G1, G2, E]),
  ('Q', [A1, A2, F, B, E, L, C, D1, D2]),
  ('R', [A1, A2, F, B, G1, G2, E, L]),
  ('S', [A1, A2, F, G1, G2, C, D1, D2]),
  ('T', [A1, A2, J, M]),
  ('U', [F, B, E, C, D1, D2]),
  ('V', [F, K, E, N]),
  ('W', [F, E, N, L, C, B]),
  ('X', [H, K, N, L]),
  ('Y', [F, B, G1, G2, C, D1, D2]),
  ('Z', [A1, A2, K, N, D1, D2]),
  ('[', [A2, J, M, D2]),
  ('\\', [H, L]),
  (']', [A1, J, M, D1]),
  ('^', [N, L]),
  ('_', [D1, D2]),
  ('`', [H]),
  ('a', [G1, E, M, D1, D2]),
  ('b', [F, G1, E, M, D1]),
  ('c', [G1, E, D1]),
  ('d', [B, G2, M, C, D2]),
  ('e', [G1, E, N, D1]),
  ('f', [A2, J, G1, G2, M]),
  ('g', [A1, F, J, G1, M, D1]),
  ('h', [F, G1, E, M]),
  ('i', [M]),
  ('j', [J, E, M, D1]),
  ('k', [J, K, M, L]),
  ('l', [F, E]),
  ('m', [G1, G2, E, M, C]),
  ('n', [G1, E, M]),
  ('o', [G1, E, M, D1]),
  ('p', [A1, F, J, G1, E]),
  ('q', [A1, F, J, G1, M]),
  ('r', [G1, E]),
  ('s', [A1, F, G1, M, D1]),
  ('t', [F, G1, E, D1]),
  ('u', [E, M, D1]),
  ('v', [E, N]),
  ('w', [E, N, L, C]),
  ('x', [H, K, N, L]),
  ('y', [J, B, G2, C, D2]),
  ('z', [G1, N, D1]),
  ('\x7b', [A2, J, G1, M, D2]),
  ('|', [J, M]),
  ('\x7d', [A1, J, G2, M, D1]),
  ('~', [K, G1, G2, N])]

example : characterSegments.lookup '8' =
    some [A1, A2, F, B, G1, G2, E, C, D1, D2] := by decide
example : characterSegments.lookup '.' = none := by decide

/-- unsuppOf models the scanning loop of SupportsChars: it collects the
distinct unsupported runes of the string (the source stores them in a
set whose iteration order is unspecified; this embedding fixes
first-occurrence order). -/
def unsuppOf (s : List Char) : List Char :=
  s.foldl
    (fun acc r =>
      if (characterSegments.lookup r).isSome then acc
      else if r ∈ acc then acc else acc ++ [r])
    []

/-- SupportsChars, translated from the source: reports whether every rune
of the string is supported, together with the unsupported runes found. -/
def SupportsChars (s : List Char) : Bool × List Char :=
  ((unsuppOf s).isEmpty, unsuppOf s)

/-- Sanitize, translated from the source: a copy of the string with every
unsupported rune replaced by a space character. -/
def Sanitize (s : List Char) : List Char :=
  s.map (fun r => if (characterSegments.lookup r).isSome then r else ' ')

example : Sanitize ['H', 'i', '.'] = ['H', 'i', ' '] := by decide
example : SupportsChars ['H', 'i', '.'] = (false, ['.']) := by decide
example : SupportsChars ['H', 'i', '!'] = (true, []) := by decide

/-- Modelled from the spec: cell.Option styling attributes (the cell
package is outside the reviewed tree); they are opaque tokens applied
uniformly to all drawn cells, modelled as natural numbers. -/
abbrev CellOpt := Nat

/-- Display represents the segment display: the lit/unlit status of each
segment (the source's map with absent keys implicitly false is embedded
as a total boolean function) plus the styling options. -/
structure Display where
  segments : Segment → Bool
  cellOpts : List CellOpt

/-- DispOption models the package's Option values; the only constructor
in the source is CellOpts, which sets the cell options on the display. -/
inductive DispOption where
  | CellOpts (l : List CellOpt)

/-- DispOption.set applies an option to a display, as the source's
option.set does. -/
def DispOption.set : DispOption → Display → Display
  | .CellOpts l, d => { d with cellOpts := l }

/-- New creates a new segment display with all segments off and applies
the provided options. -/
def New (opts : List DispOption) : Display :=
  opts.foldl (fun d o => o.set d) ⟨fun _ => false, []⟩

/-- Display.Clear applies any provided options and turns all segments
off, as in the source. -/
def Display.Clear (d : Display) (opts : List DispOption) : Display :=
  let d2 := opts.foldl (fun a o => o.set a) d
  { d2 with segments := fun _ => false }

/-- DispErr models the error values of the package: the unknown-segment
error raised by the mutators and the unsupported-character error raised
by SetCharacter. -/
inductive DispErr where
  | unknownSegment (s : Segment)
  | unsupportedCharacter (c : Char)
deriving DecidableEq, Repr

/-- Display.SetSegment, translated from the source: validates the segment
and sets it on.  The pair returns the Go error value alongside the
display after the call (the receiver is mutated in place in Go). -/
def Display.SetSegment (d : Display) (s : Segment) : Option DispErr × Display :=
  if s ≤ segmentUnknown ∨ segmentMax ≤ s then
    (some (.unknownSegment s), d)
  else
    (none, { d with segments := Function.update d.segments s true })

/-- Display.ClearSegment, translated from the source: validates the
segment and sets it off. -/
def Display.ClearSegment (d : Display) (s : Segment) : Option DispErr × Display :=
  if s ≤ segmentUnknown ∨ segmentMax ≤ s then
    (some (.unknownSegment s), d)
  else
    (none, { d with segments := Function.update d.segments s false })

/-- Display.ToggleSegment, translated from the source: validates the
segment, then sets it off when currently on and on when currently off. -/
def Display.ToggleSegment (d : Display) (s : Segment) : Option DispErr × Display :=
  if s ≤ segmentUnknown ∨ segmentMax ≤ s then
    (some (.unknownSegment s), d)
  else if d.segments s then
    (none, { d with segments := Function.update d.segments s false })
  else
    (none, { d with segments := Function.update d.segments s true })

/-- setSegmentsList models the loop inside SetCharacter: SetSegment is
applied to each listed segment in order, returning on the first error. -/
def setSegmentsList : Display → List Segment → Option DispErr × Display
  | d, [] => (none, d)
  | d, s :: rest =>
    match d.SetSegment s with
    | (some e, d2) => (some e, d2)
    | (none, d2) => setSegmentsList d2 rest

/-- Display.SetCharacter, translated from the source: looks the character
up in characterSegments, fails when absent, and otherwise sets every
segment on the associated list. -/
def Display.SetCharacter (d : Display) (c : Char) : Option DispErr × Display :=
  match characterSegments.lookup c with
  | none => (some (.unsupportedCharacter c), d)
  | some seg => setSegmentsList d seg

example : ((New []).SetCharacter '8').1 = none := by decide
example : ((New []).SetCharacter '.').1 =
    some (.unsupportedCharacter '.') := by decide
example : ((New []).SetCharacter '8').2.segments G1 = true := by decide
example : ((New []).SetCharacter '8').2.segments H = false := by decide

/-- Modelled from the spec: the style options of the external straight
segment rasterizer that this package passes (segment.SkipSlopesLTE,
segment.ReverseSlopes, segment.CellOpts). -/
inductive SegOption where
  | SkipSlopesLTE (n : Int)
  | ReverseSlopes
  | CellOpts (l : List CellOpt)
deriving DecidableEq, Repr

/-- drawSegArgs is the anonymous struct slice inside Draw, entry for
entry: the straight segments in their fixed order, each with its
per-segment rasterizer option overlay. -/
def drawSegArgs : List (Segment × List SegOption) := [
  (A1, []),
  (A2, []),
  (F, []),
  (J, [.SkipSlopesLTE 2]),
  (B, [.ReverseSlopes]),
  (G1, [.SkipSlopesLTE 2]),
  (G2, [.SkipSlopesLTE 2]),
  (E, []),
  (M, [.SkipSlopesLTE 2]),
  (C, [.ReverseSlopes]),
  (D1, [.ReverseSlopes]),
  (D2, [.ReverseSlopes])]

/-- diagSegOrder is the slice of diagonal segments drawn after the
straight ones, in source order. -/
def diagSegOrder : List Segment := [H, K, N, L]

/-- hvBaseOpts is the base option slice Draw builds before the straight
segment loop: the cell options are passed when nonempty. -/
def hvBaseOpts (d : Display) : List SegOption :=
  if d.cellOpts.length > 0 then [.CellOpts d.cellOpts] else []

/-- HVReq records one draw request issued to the external straight
segment rasterizer: the segment and the option slice passed. -/
structure HVReq where
  seg : Segment
  opts : List SegOption
deriving DecidableEq, Repr

/-- Canvas models the caller-supplied character cell canvas: its cell
area and abstract cell contents. -/
structure Canvas where
  area : Rect
  content : List Nat
deriving DecidableEq, Repr

/-- DrawEnv models the external collaborators of Draw from the spec: the
outcome of each straight and diagonal rasterizer request, whether
constructing the braille canvas succeeds, and the final bulk copy of the
braille contents onto the caller's canvas (none models a copy failure). -/
structure DrawEnv where
  hvOk : Segment → Bool
  diaOk : Segment → Bool
  brailleNewOk : Bool
  copyTo : List HVReq → List Segment → List Nat → Option (List Nat)

/-- DrawErr models the error returns of Draw: the wrapped sizing error
from Required, a braille canvas construction failure, a straight or
diagonal rasterizer failure wrapped with the failing segment, and a
failure of the final copy. -/
inductive DrawErr where
  | requiredTooSmall
  | brailleNewFailed
  | hvFail (s : Segment)
  | diaFail (s : Segment)
  | copyFail
deriving DecidableEq, Repr

/-- runHV models the straight segment loop of Draw: walks the argument
table, skips unlit segments, issues one request per lit segment with the
base options followed by the per-segment overlay, and stops at the first
request the rasterizer fails; returns the issued requests and the
failing segment, if any. -/
def runHV (env : DrawEnv) (d : Display) (base : List SegOption) :
    List (Segment × List SegOption) → List HVReq × Option Segment
  | [] => ([], none)
  | (s, o) :: rest =>
    if d.segments s then
      if env.hvOk s then
        let r := runHV env d base rest
        (⟨s, base ++ o⟩ :: r.1, r.2)
      else ([⟨s, base ++ o⟩], some s)
    else runHV env d base rest

/-- runDia models the diagonal segment loop of Draw: walks the diagonal
segments, skips unlit ones, issues one request per lit segment, and
stops at the first failing request. -/
def runDia (env : DrawEnv) (d : Display) :
    List Segment → List Segment × Option Segment
  | [] => ([], none)
  | s :: rest =>
    if d.segments s then
      if env.diaOk s then
        let r := runDia env d rest
        (s :: r.1, r.2)
      else ([s], some s)
    else runDia env d rest

/-- DrawResult packages the observable outcome of one Draw call: the Go
error value, the display after the call (Draw mutates its receiver when
options are passed), the caller's canvas after the call, and the
requests issued to the external rasterizers. -/
structure DrawResult where
  err : Option DrawErr
  disp : Display
  cvs : Canvas
  hvReqs : List HVReq
  diaReqs : List Segment

/-- Display.Draw, translated from the source: applies the provided
options to the display, sizes the canvas through Required (toBraille),
draws every lit straight segment in the fixed table order and then every
lit diagonal segment, aborting on the first failure, and finally commits
the braille contents onto the caller's canvas. -/
def Display.Draw (d : Display) (env : DrawEnv) (cvs : Canvas)
    (opts : List DispOption) : DrawResult :=
  let d2 := opts.foldl (fun a o => o.set a) d
  match Required cvs.area with
  | none => ⟨some .requiredTooSmall, d2, cvs, [], []⟩
  | some _ =>
    if env.brailleNewOk then
      let hv := runHV env d2 (hvBaseOpts d2) drawSegArgs
      match hv.2 with
      | some s => ⟨some (.hvFail s), d2, cvs, hv.1, []⟩
      | none =>
        let dia := runDia env d2 diagSegOrder
        match dia.2 with
        | some s => ⟨some (.diaFail s), d2, cvs, hv.1, dia.1⟩
        | none =>
          match env.copyTo hv.1 dia.1 cvs.content with
          | none => ⟨some .copyFail, d2, cvs, hv.1, dia.1⟩
          | some content2 => ⟨none, d2, { cvs with content := content2 }, hv.1, dia.1⟩
    else ⟨some .brailleNewFailed, d2, cvs, [], []⟩

/-- allOkEnv is a concrete environment in which every rasterizer request
succeeds and the final copy appends an encoding of the request count. -/
def allOkEnv : DrawEnv :=
  ⟨fun _ => true, fun _ => true, true,
    fun hv dia content => some (content ++ [hv.length, dia.length])⟩

/-- specStraightOrder is the straight-segment drawing order exactly as
the specification claims it, written from the claim's words for the
refinement proof. -/
def specStraightOrder : List Segment :=
  [A1, A2, F, J, B, G1, G2, E, M, C, D1, D2]

/-- specStraightOpts is the per-segment option overlay exactly as the
specification claims it: J, G1, G2, M carry the skip-slope-at-most-2
option, B, C, D1, D2 carry the reverse-slope option, and A1, A2, F, E
carry no special option; written from the claim's words. -/
def specStraightOpts (s : Segment) : List SegOption :=
  if s = J ∨ s = G1 ∨ s = G2 ∨ s = M then [.SkipSlopesLTE 2]
  else if s = B ∨ s = C ∨ s = D1 ∨ s = D2 then [.ReverseSlopes]
  else []

/-- specDiagOrder is the diagonal-segment order exactly as the
specification claims it, written from the claim's words. -/
def specDiagOrder : List Segment := [H, K, N, L]

/-- witnessDisplay is a concrete display with exactly the segments A1
and H lit and no cell options, used to instantiate theorems. -/
def witnessDisplay : Display := ⟨fun s => s == A1 || s == H, []⟩

/-- failA1Env is a concrete environment in which the straight rasterizer
request for segment A1 fails and everything else succeeds. -/
def failA1Env : DrawEnv :=
  ⟨fun s => !(s == A1), fun _ => true, true,
    fun hv dia content => some (content ++ [hv.length, dia.length])⟩

example :
    (((New []).SetCharacter '1').2.Draw allOkEnv ⟨⟨0, 0, 6, 5⟩, []⟩ []).hvReqs
      = [⟨B, [.ReverseSlopes]⟩, ⟨C, [.ReverseSlopes]⟩] := by decide
example :
    (((New []).SetCharacter '1').2.Draw allOkEnv ⟨⟨0, 0, 6, 5⟩, []⟩ []).diaReqs
      = [K] := by decide
example :
    (((New []).SetCharacter '1').2.Draw allOkEnv ⟨⟨0, 0, 5, 5⟩, []⟩ []).err
      = some .requiredTooSmall := by decide

/-- validSeg states that a segment value lies strictly between the two
sentinels, the validation contract used by every mutator. -/
def validSeg (s : Segment) : Prop := segmentUnknown < s ∧ s < segmentMax

instance (s : Segment) : Decidable (validSeg s) := by
  unfold validSeg; infer_instance

/-- invalidIff relates the source's rejection test to validSeg. -/
theorem invalidIff (s : Segment) :
    (s ≤ segmentUnknown ∨ segmentMax ≤ s) ↔ ¬ validSeg s := by
  simp only [validSeg]
  rw [not_and_or, not_lt, not_lt]

/-- lookupValid lifts per-entry validity of an association list to
validity of every successful lookup result. -/
theorem lookupValid (l : List (Char × List Segment))
    (hl : ∀ p ∈ l, ∀ s ∈ p.2, validSeg s) (c : Char) (v : List Segment)
    (h : l.lookup c = some v) : ∀ s ∈ v, validSeg s := by
  induction l with
  | nil => simp [List.lookup] at h
  | cons p rest ih =>
    rw [List.lookup] at h
    cases hck : c == p.1 with
    | true =>
      rw [hck] at h
      cases h
      exact hl p (List.mem_cons_self p rest)
    | false =>
      rw [hck] at h
      exact ih (fun q hq => hl q (List.mem_cons_of_mem p hq)) h

/-- tableValid: every segment listed in the character table is valid. -/
theorem tableValid : ∀ p ∈ characterSegments, ∀ s ∈ p.2, validSeg s := by decide

/-- setSegmentsListValid: when every listed segment is valid, the
SetCharacter loop succeeds, leaves the cell options alone, and the
resulting lit set is the union of the listed segments with the lit set
before the call. -/
theorem setSegmentsListValid (l : List Segment) :
    ∀ d : Display, (∀ s ∈ l, validSeg s) →
      (setSegmentsList d l).1 = none ∧
      (setSegmentsList d l).2.cellOpts = d.cellOpts ∧
      (∀ t, (setSegmentsList d l).2.segments t = true ↔
        t ∈ l ∨ d.segments t = true) := by
  induction l with
  | nil =>
    intro d _
    refine ⟨rfl, rfl, fun t => ?_⟩
    simp [setSegmentsList]
  | cons s rest ih =>
    intro d hval
    have hs : validSeg s := hval s (List.mem_cons_self s rest)
    have hc : ¬ (s ≤ segmentUnknown ∨ segmentMax ≤ s) := by
      rw [invalidIff]; exact not_not_intro hs
    have hstep : d.SetSegment s =
        (none, { d with segments := Function.update d.segments s true }) := by
      simp only [Display.SetSegment, if_neg hc]
    have hrec := ih { d with segments := Function.update d.segments s true }
      (fun u hu => hval u (List.mem_cons_of_mem s hu))
    rw [setSegmentsList, hstep]
    refine ⟨hrec.1, hrec.2.1, fun t => ?_⟩
    rw [hrec.2.2 t]
    by_cases ht : t = s
    · subst ht
      simp [Function.update_same]
    · simp [Function.update_noteq ht, List.mem_cons, ht]

/-- requiredNoneIff: Required fails exactly on the areas with fewer than
MinCols columns or fewer than MinRows rows. -/
theorem requiredNoneIff (a : Rect) :
    Required a = none ↔ (a.Dx < MinCols ∨ a.Dy < MinRows) := by
  unfold Required
  split
  · rename_i h
    simp [h]
  · rename_i h
    simp [h]

/-- requiredOriginEval: the value Required computes on an area of c
columns by r rows anchored at the origin, written out arithmetically. -/
theorem requiredOriginEval (c r : Int) (h6 : MinCols ≤ c) (h5 : MinRows ≤ r) :
    Required ⟨0, 0, c, r⟩ =
      some ⟨0, 0,
        (3 * max 0 (min ((c * 2 - 0) / 3) ((r * 4 - 0) / 5)) + 1) / 2,
        (5 * max 0 (min ((c * 2 - 0) / 3) ((r * 4 - 0) / 5)) + 3) / 4⟩ := by
  simp only [MinCols, MinRows] at h6 h5
  have hcond : ¬(Rect.Dx ⟨0, 0, c, r⟩ < MinCols ∨ Rect.Dy ⟨0, 0, c, r⟩ < MinRows) := by
    simp only [Rect.Dx, Rect.Dy, MinCols, MinRows]
    omega
  unfold Required
  rw [if_neg hcond]
  simp only [WithRatio, ceilDivP, Rect.Dx, Rect.Dy, aspectRatio]
  simp only [ColMult, RowMult, Option.some.injEq, Rect.mk.injEq, true_and]
  omega

/-- requiredOriginGood: for areas anchored at the origin — the only
areas the package itself passes — Required behaves as the specification
claims: it succeeds on any area of at least MinCols by MinRows cells,
returns an area at least MinCols by MinRows and no larger than the
input on either axis, and returns a fixed point of Required. -/
theorem requiredOriginGood (c r : Int) (hc : MinCols ≤ c) (hr : MinRows ≤ r) :
    ∃ c2 r2, Required ⟨0, 0, c, r⟩ = some ⟨0, 0, c2, r2⟩ ∧
      MinCols ≤ c2 ∧ c2 ≤ c ∧ MinRows ≤ r2 ∧ r2 ≤ r ∧
      Required ⟨0, 0, c2, r2⟩ = some ⟨0, 0, c2, r2⟩ := by
  have heval := requiredOriginEval c r hc hr
  simp only [MinCols, MinRows] at hc hr ⊢
  refine ⟨_, _, heval, ?_, ?_, ?_, ?_, ?_⟩
  · omega
  · omega
  · omega
  · omega
  · have hc2 : (6 : Int) ≤
        (3 * max 0 (min ((c * 2 - 0) / 3) ((r * 4 - 0) / 5)) + 1) / 2 := by
      omega
    have hr2 : (5 : Int) ≤
        (5 * max 0 (min ((c * 2 - 0) / 3) ((r * 4 - 0) / 5)) + 3) / 4 := by
      omega
    have heval2 := requiredOriginEval _ _ hc2 hr2
    rw [heval2]
    simp only [Option.some.injEq, Rect.mk.injEq, true_and]
    omega

section Theorems

/-- C1: Required rejects exactly the areas with fewer than 6 columns or
5 rows, but its claim that a 6x5 input always yields an area no larger
than 6x5 fails on the code: for the 6x5 cell area anchored at (10, 10)
it succeeds and returns an 11x9 area, larger than the input on both
axes, because only the Max corner is scaled by the braille multipliers. -/
theorem required_exceeds_min_area_at_offset :
    Required ⟨10, 10, 16, 15⟩ = some ⟨10, 10, 21, 19⟩ ∧
    Rect.Dx ⟨10, 10, 16, 15⟩ = MinCols ∧
    Rect.Dy ⟨10, 10, 16, 15⟩ = MinRows ∧
    MinCols < Rect.Dx ⟨10, 10, 21, 19⟩ ∧
    MinRows < Rect.Dy ⟨10, 10, 21, 19⟩ := by decide

/-- C2: Required is neither monotonic nor idempotent on the code: on the
6x5 input anchored at (10, 10) it returns an 11x9 area exceeding the
input on both axes, and applying Required to that output yields a yet
larger 15x13 area rather than the same area. -/
theorem required_not_monotone_not_idempotent :
    Required ⟨10, 10, 16, 15⟩ = some ⟨10, 10, 21, 19⟩ ∧
    Required ⟨10, 10, 21, 19⟩ = some ⟨10, 10, 25, 23⟩ ∧
    (⟨10, 10, 25, 23⟩ : Rect) ≠ ⟨10, 10, 21, 19⟩ ∧
    Rect.Dx ⟨10, 10, 16, 15⟩ < Rect.Dx ⟨10, 10, 21, 19⟩ ∧
    Rect.Dy ⟨10, 10, 16, 15⟩ < Rect.Dy ⟨10, 10, 21, 19⟩ := by decide

/-- C7: on any segment value outside the open sentinel interval, each of
SetSegment, ClearSegment and ToggleSegment fails with the
unknown-segment error and returns the display exactly as it was, and on
any segment value inside the interval each of them succeeds. -/
theorem segment_mutators_validate (d : Display) (s : Segment) :
    (¬ validSeg s →
      d.SetSegment s = (some (.unknownSegment s), d) ∧
      d.ClearSegment s = (some (.unknownSegment s), d) ∧
      d.ToggleSegment s = (some (.unknownSegment s), d)) ∧
    (validSeg s →
      (d.SetSegment s).1 = none ∧
      (d.ClearSegment s).1 = none ∧
      (d.ToggleSegment s).1 = none) := by
  constructor
  · intro hv
    have hc : s ≤ segmentUnknown ∨ segmentMax ≤ s := (invalidIff s).mpr hv
    refine ⟨?_, ?_, ?_⟩ <;>
      simp only [Display.SetSegment, Display.ClearSegment, Display.ToggleSegment,
        if_pos hc]
  · intro hv
    have hc : ¬ (s ≤ segmentUnknown ∨ segmentMax ≤ s) := by
      rw [invalidIff]; exact not_not_intro hv
    refine ⟨?_, ?_, ?_⟩ <;>
      simp only [Display.SetSegment, Display.ClearSegment, Display.ToggleSegment,
        if_neg hc]
    split <;> rfl

/-- Witness for C7 at concrete inputs: the invalid value 17 (the max
sentinel) is rejected leaving the display unchanged, and the valid
value 1 (segment A1) is accepted. -/
theorem segment_mutators_validate_witness :
    (New []).SetSegment 17 = (some (.unknownSegment 17), New []) ∧
    ((New []).SetSegment 1).1 = none :=
  ⟨((segment_mutators_validate (New []) 17).1 (by decide)).1,
   ((segment_mutators_validate (New []) 1).2 (by decide)).1⟩

/-- C8: for any valid segment, SetSegment and ClearSegment are
idempotent, ClearSegment after SetSegment leaves the segment unlit, and
two consecutive ToggleSegment calls restore the original display. -/
theorem segment_mutators_algebra (d : Display) (s : Segment) (hv : validSeg s) :
    ((d.SetSegment s).2.SetSegment s).2 = (d.SetSegment s).2 ∧
    ((d.ClearSegment s).2.ClearSegment s).2 = (d.ClearSegment s).2 ∧
    ((d.SetSegment s).2.ClearSegment s).2.segments s = false ∧
    ((d.ToggleSegment s).2.ToggleSegment s).2 = d := by
  have hc : ¬ (s ≤ segmentUnknown ∨ segmentMax ≤ s) := by
    rw [invalidIff]; exact not_not_intro hv
  refine ⟨?_, ?_, ?_, ?_⟩
  · simp only [Display.SetSegment, if_neg hc, Function.update_idem]
  · simp only [Display.ClearSegment, if_neg hc, Function.update_idem]
  · simp only [Display.SetSegment, Display.ClearSegment, if_neg hc,
      Function.update_same]
  · by_cases hb : d.segments s
    · simp only [Display.ToggleSegment, if_neg hc, hb, if_true,
        Function.update_same, Bool.false_eq_true, if_false, Function.update_idem]
      have h1 : Function.update d.segments s true = d.segments := by
        rw [← hb]; exact Function.update_eq_self s d.segments
      rw [h1]
    · rw [Bool.not_eq_true] at hb
      simp only [Display.ToggleSegment, if_neg hc, hb, if_true,
        Function.update_same, Bool.false_eq_true, if_false, Function.update_idem]
      have h1 : Function.update d.segments s false = d.segments := by
        rw [← hb]; exact Function.update_eq_self s d.segments
      rw [h1]

/-- Witness for C8 at a concrete input: instantiated on an empty display
and the valid segment A1 (value 1). -/
theorem segment_mutators_algebra_witness :
    (((New []).SetSegment 1).2.SetSegment 1).2 = ((New []).SetSegment 1).2 ∧
    (((New []).ClearSegment 1).2.ClearSegment 1).2 = ((New []).ClearSegment 1).2 ∧
    (((New []).SetSegment 1).2.ClearSegment 1).2.segments 1 = false ∧
    (((New []).ToggleSegment 1).2.ToggleSegment 1).2 = New [] :=
  segment_mutators_algebra (New []) 1 (by decide)

/-- C6: SetCharacter fails with the unsupported-character error exactly
when the character has no entry in the table (leaving the display
unchanged); otherwise it succeeds, lights every segment on the entry's
list, and never turns a lit segment off; and on a previously empty
display the character 8 lights exactly the segments
A1, A2, F, B, G1, G2, E, C, D1, D2 and no others. -/
theorem set_character_spec :
    (∀ (d : Display) (c : Char),
      ((d.SetCharacter c).1 ≠ none ↔ characterSegments.lookup c = none) ∧
      (characterSegments.lookup c = none →
        d.SetCharacter c = (some (.unsupportedCharacter c), d)) ∧
      (∀ l, characterSegments.lookup c = some l →
        (d.SetCharacter c).1 = none ∧
        ∀ s ∈ l, (d.SetCharacter c).2.segments s = true) ∧
      (∀ t, d.segments t = true → (d.SetCharacter c).2.segments t = true)) ∧
    (∀ t : Segment, ((New []).SetCharacter '8').2.segments t = true ↔
      (t = A1 ∨ t = A2 ∨ t = F ∨ t = B ∨ t = G1 ∨ t = G2 ∨
        t = E ∨ t = C ∨ t = D1 ∨ t = D2)) := by
  have main : ∀ (d : Display) (c : Char) (l : List Segment),
      characterSegments.lookup c = some l →
      (d.SetCharacter c).1 = none ∧
      (∀ t, (d.SetCharacter c).2.segments t = true ↔
        t ∈ l ∨ d.segments t = true) := by
    intro d c l hl
    have hval := lookupValid characterSegments tableValid c l hl
    have h := setSegmentsListValid l d hval
    rw [Display.SetCharacter, hl]
    exact ⟨h.1, h.2.2⟩
  constructor
  · intro d c
    refine ⟨?_, ?_, ?_, ?_⟩
    · constructor
      · intro hne
        cases hlk : characterSegments.lookup c with
        | none => rfl
        | some l => exact absurd ((main d c l hlk).1) hne
      · intro hlk
        rw [Display.SetCharacter, hlk]
        simp
    · intro hlk
      rw [Display.SetCharacter, hlk]
    · intro l hlk
      refine ⟨(main d c l hlk).1, fun s hs => ?_⟩
      exact ((main d c l hlk).2 s).mpr (Or.inl hs)
    · intro t ht
      cases hlk : characterSegments.lookup c with
      | none =>
        rw [Display.SetCharacter, hlk]
        exact ht
      | some l => exact ((main d c l hlk).2 t).mpr (Or.inr ht)
  · intro t
    have h8 : characterSegments.lookup '8' =
        some [A1, A2, F, B, G1, G2, E, C, D1, D2] := by decide
    have h := (main (New []) '8' _ h8).2 t
    rw [h]
    have hempty : (New []).segments t = false := rfl
    rw [hempty]
    simp [List.mem_cons]

/-- Witness for C6 at concrete inputs: the unsupported period is
rejected leaving the display unchanged, and segment B (value 3) is lit
after setting the character 8 on an empty display. -/
theorem set_character_spec_witness :
    (New []).SetCharacter '.' = (some (.unsupportedCharacter '.'), New []) ∧
    ((New []).SetCharacter '8').2.segments B = true :=
  ⟨(set_character_spec.1 (New []) '.').2.1 (by decide),
   (set_character_spec.2 B).mpr (by decide)⟩

/-- C9: Sanitize keeps the number of code points, passes every supported
code point through unchanged in its position, replaces every unsupported
code point by a space, and is idempotent. -/
theorem sanitize_spec (s : List Char) :
    (Sanitize s).length = s.length ∧
    (∀ (i : Nat) (h1 : i < s.length) (h2 : i < (Sanitize s).length),
      ((characterSegments.lookup (s.get ⟨i, h1⟩)).isSome = true →
        (Sanitize s).get ⟨i, h2⟩ = s.get ⟨i, h1⟩) ∧
      ((characterSegments.lookup (s.get ⟨i, h1⟩)).isSome = false →
        (Sanitize s).get ⟨i, h2⟩ = ' ')) ∧
    Sanitize (Sanitize s) = Sanitize s := by
  refine ⟨List.length_map s _, ?_, ?_⟩
  · intro i h1 h2
    constructor <;> intro hsupp <;>
      · rw [List.get_eq_getElem] at hsupp
        simp only [List.get_eq_getElem, Sanitize, List.getElem_map, hsupp]
        simp
  · simp only [Sanitize, List.map_map]
    congr 1
    funext r
    by_cases hr : (characterSegments.lookup r).isSome
    · simp [Function.comp, hr]
    · simp [Function.comp, hr]

/-- Witness for C9 at a concrete input: sanitizing the two-character
string consisting of the letter a and a period keeps the a in place and
replaces the period by a space. -/
theorem sanitize_spec_witness :
    (Sanitize ['a', '.']).get ⟨0, by decide⟩ = 'a' ∧
    (Sanitize ['a', '.']).get ⟨1, by decide⟩ = ' ' :=
  ⟨((sanitize_spec ['a', '.']).2.1 0 (by decide) (by decide)).1 (by decide),
   ((sanitize_spec ['a', '.']).2.1 1 (by decide) (by decide)).2 (by decide)⟩

end Theorems

/-- printableBall: a decidable census of the table: every code point
below 0x7F that is at least 0x20 and is not the period 0x2E has an
entry. -/
theorem printableBall : ∀ n : Nat, n < 0x7F → 0x20 ≤ n → n ≠ 0x2E →
    (characterSegments.lookup (Char.ofNat n)).isSome = true := by decide

/-- printableSupported: every printable ASCII character other than the
period has an entry in the character table. -/
theorem printableSupported (c : Char) (h1 : 0x20 ≤ c.toNat)
    (h2 : c.toNat ≤ 0x7E) (h3 : c.toNat ≠ 0x2E) :
    (characterSegments.lookup c).isSome = true := by
  have h := printableBall c.toNat (by omega) h1 h3
  rwa [Char.ofNat_toNat] at h

/-- unsuppFoldlId: the scanning loop of SupportsChars leaves any
accumulator unchanged on a string of supported runes. -/
theorem unsuppFoldlId (s : List Char)
    (h : ∀ c ∈ s, (characterSegments.lookup c).isSome = true) :
    ∀ acc : List Char,
      s.foldl
        (fun acc r =>
          if (characterSegments.lookup r).isSome then acc
          else if r ∈ acc then acc else acc ++ [r]) acc = acc := by
  induction s with
  | nil => intro acc; rfl
  | cons c t ih =>
    intro acc
    rw [List.foldl_cons, if_pos (h c (List.mem_cons_self c t))]
    exact ih (fun u hu => h u (List.mem_cons_of_mem c hu)) acc

section MoreTheorems

/-- C10: the character table covers every printable ASCII code point
from 0x20 through 0x7E except exactly the period 0x2E; SupportsChars on
any string of printable ASCII characters other than the period succeeds
with an empty unsupported set, and SupportsChars on the period alone
fails with exactly the period reported. -/
theorem printable_ascii_coverage :
    (∀ n : Nat, n < 0x7F → 0x20 ≤ n → n ≠ 0x2E →
      (characterSegments.lookup (Char.ofNat n)).isSome = true) ∧
    characterSegments.lookup '.' = none ∧
    (∀ s : List Char,
      (∀ c ∈ s, 0x20 ≤ c.toNat ∧ c.toNat ≤ 0x7E ∧ c.toNat ≠ 0x2E) →
      SupportsChars s = (true, [])) ∧
    SupportsChars ['.'] = (false, ['.']) := by
  refine ⟨printableBall, by decide, ?_, by decide⟩
  intro s hs
  have hsupp : ∀ c ∈ s, (characterSegments.lookup c).isSome = true :=
    fun c hc => printableSupported c (hs c hc).1 (hs c hc).2.1 (hs c hc).2.2
  have hz : unsuppOf s = [] := unsuppFoldlId s hsupp []
  rw [SupportsChars, hz]
  rfl

/-- Witness for C10 at a concrete input: the single-character string
consisting of the capital letter A is fully supported. -/
theorem printable_ascii_coverage_witness :
    SupportsChars ['A'] = (true, []) :=
  printable_ascii_coverage.2.2.1 ['A'] (by decide)

end MoreTheorems

/-- drawSegArgsSpec: the source's draw table coincides with the claimed
order paired with the claimed per-segment options. -/
theorem drawSegArgsSpec :
    drawSegArgs = specStraightOrder.map (fun s => (s, specStraightOpts s)) := by
  decide

/-- optsFoldSegments: applying any option list never changes the lit
segments, since the only option constructor sets the cell options. -/
theorem optsFoldSegments (opts : List DispOption) :
    ∀ d : Display, (opts.foldl (fun a o => o.set a) d).segments = d.segments := by
  induction opts with
  | nil => intro d; rfl
  | cons o rest ih =>
    intro d
    rw [List.foldl_cons, ih]
    cases o with
    | CellOpts l => rfl

/-- drawDisp: the display returned by Draw is the input display with the
option list applied, on every control path. -/
theorem drawDisp (d : Display) (env : DrawEnv) (cvs : Canvas)
    (opts : List DispOption) :
    (d.Draw env cvs opts).disp = opts.foldl (fun a o => o.set a) d := by
  unfold Display.Draw
  split
  · rfl
  · split
    · dsimp only
      split
      · rfl
      · split
        · rfl
        · split
          · rfl
          · rfl
    · rfl

/-- runHVAllOk: when every straight rasterizer request succeeds, the
straight loop issues exactly one request per lit table entry, in table
order, with the base options followed by the entry's overlay. -/
theorem runHVAllOk (env : DrawEnv) (d : Display) (base : List SegOption)
    (hhv : ∀ s, env.hvOk s = true) :
    ∀ l : List (Segment × List SegOption),
      runHV env d base l =
        ((l.filter (fun p => d.segments p.1)).map
          (fun p => (⟨p.1, base ++ p.2⟩ : HVReq)), none) := by
  intro l
  induction l with
  | nil => rfl
  | cons p rest ih =>
    obtain ⟨s, o⟩ := p
    rw [runHV]
    by_cases hl : d.segments s
    · rw [if_pos hl, if_pos (hhv s), ih]
      simp [List.filter_cons, hl]
    · rw [if_neg hl, ih]
      rw [Bool.not_eq_true] at hl
      simp [List.filter_cons, hl]

/-- runDiaAllOk: when every diagonal rasterizer request succeeds, the
diagonal loop issues exactly one request per lit segment, in order. -/
theorem runDiaAllOk (env : DrawEnv) (d : Display)
    (hdia : ∀ s, env.diaOk s = true) :
    ∀ l : List Segment,
      runDia env d l = (l.filter (fun s => d.segments s), none) := by
  intro l
  induction l with
  | nil => rfl
  | cons s rest ih =>
    rw [runDia]
    by_cases hl : d.segments s
    · rw [if_pos hl, if_pos (hdia s), ih]
      simp [List.filter_cons, hl]
    · rw [if_neg hl, ih]
      rw [Bool.not_eq_true] at hl
      simp [List.filter_cons, hl]

/-- runHVFail: when the straight loop reports a failing segment, that
segment was lit and its rasterizer request failed. -/
theorem runHVFail (env : DrawEnv) (d : Display) (base : List SegOption) :
    ∀ (l : List (Segment × List SegOption)) (reqs : List HVReq) (s : Segment),
      runHV env d base l = (reqs, some s) →
      d.segments s = true ∧ env.hvOk s = false := by
  intro l
  induction l with
  | nil =>
    intro reqs s h
    rw [runHV] at h
    cases h
  | cons p rest ih =>
    intro reqs s h
    obtain ⟨u, o⟩ := p
    rw [runHV] at h
    by_cases hl : d.segments u
    · rw [if_pos hl] at h
      by_cases hok : env.hvOk u
      · rw [if_pos hok] at h
        have h2 : (runHV env d base rest).2 = some s := congrArg Prod.snd h
        exact ih (runHV env d base rest).1 s (by rw [← h2])
      · rw [if_neg hok] at h
        have h2 : some u = some s := congrArg Prod.snd h
        cases h2
        rw [Bool.not_eq_true] at hok
        exact ⟨hl, hok⟩
    · rw [if_neg hl] at h
      exact ih reqs s h

/-- runDiaFail: when the diagonal loop reports a failing segment, that
segment was lit and its rasterizer request failed. -/
theorem runDiaFail (env : DrawEnv) (d : Display) :
    ∀ (l : List Segment) (reqs : List Segment) (s : Segment),
      runDia env d l = (reqs, some s) →
      d.segments s = true ∧ env.diaOk s = false := by
  intro l
  induction l with
  | nil =>
    intro reqs s h
    rw [runDia] at h
    cases h
  | cons u rest ih =>
    intro reqs s h
    rw [runDia] at h
    by_cases hl : d.segments u
    · rw [if_pos hl] at h
      by_cases hok : env.diaOk u
      · rw [if_pos hok] at h
        have h2 : (runDia env d rest).2 = some s := congrArg Prod.snd h
        exact ih (runDia env d rest).1 s (by rw [← h2])
      · rw [if_neg hok] at h
        have h2 : some u = some s := congrArg Prod.snd h
        cases h2
        rw [Bool.not_eq_true] at hok
        exact ⟨hl, hok⟩
    · rw [if_neg hl] at h
      exact ih reqs s h

/-- filterMapComm: filtering a list of pairs built from a base list by a
predicate on the first component, then building requests, is the same as
filtering the base list and building requests directly. -/
theorem filterMapComm (P : Segment → Bool) (base : List SegOption)
    (f : Segment → List SegOption) :
    ∀ l : List Segment,
      ((l.map (fun s => (s, f s))).filter (fun p => P p.1)).map
        (fun p => (⟨p.1, base ++ p.2⟩ : HVReq)) =
      (l.filter P).map (fun s => (⟨s, base ++ f s⟩ : HVReq)) := by
  intro l
  induction l with
  | nil => rfl
  | cons s rest ih =>
    rw [List.map_cons, List.filter_cons, List.filter_cons]
    by_cases hp : P s
    · rw [if_pos hp, if_pos hp, List.map_cons, List.map_cons, ih]
    · rw [if_neg hp, if_neg hp, ih]

section OrchestratorTheorems

/-- C3: on a valid surface with every rasterizer request succeeding,
Draw issues one straight-segment request per lit segment in exactly the
order A1, A2, F, J, B, G1, G2, E, M, C, D1, D2, where J, G1, G2, M carry
the skip-slope-when-extent-at-most-2 option, B, C, D1, D2 carry the
reverse-slope option, and A1, A2, F, E carry none, and afterwards issues
one diagonal request per lit segment among H, K, N, L in that order. -/
theorem draw_order_spec (d : Display) (env : DrawEnv) (cvs : Canvas)
    (opts : List DispOption)
    (hhv : ∀ s, env.hvOk s = true) (hdia : ∀ s, env.diaOk s = true)
    (hreq : (Required cvs.area).isSome = true) (hbn : env.brailleNewOk = true) :
    (d.Draw env cvs opts).hvReqs =
      (specStraightOrder.filter (fun s => d.segments s)).map
        (fun s => (⟨s, hvBaseOpts (opts.foldl (fun a o => o.set a) d) ++
          specStraightOpts s⟩ : HVReq)) ∧
    (d.Draw env cvs opts).diaReqs =
      specDiagOrder.filter (fun s => d.segments s) := by
  obtain ⟨ar, har⟩ := Option.isSome_iff_exists.mp hreq
  unfold Display.Draw
  rw [har]
  dsimp only
  rw [if_pos hbn]
  rw [runHVAllOk env _ _ hhv drawSegArgs, runDiaAllOk env _ hdia diagSegOrder]
  dsimp only
  split
  · dsimp only
    rw [drawSegArgsSpec, filterMapComm, optsFoldSegments]
    exact ⟨rfl, rfl⟩
  · dsimp only
    rw [drawSegArgsSpec, filterMapComm, optsFoldSegments]
    exact ⟨rfl, rfl⟩

/-- Witness for C3 at a concrete input: a display with exactly A1 and H
lit, drawn on a 6x5 canvas with an all-success environment. -/
theorem draw_order_spec_witness :
    (witnessDisplay.Draw allOkEnv ⟨⟨0, 0, 6, 5⟩, []⟩ []).hvReqs =
      (specStraightOrder.filter (fun s => witnessDisplay.segments s)).map
        (fun s => (⟨s, hvBaseOpts (([] : List DispOption).foldl
          (fun a o => o.set a) witnessDisplay) ++ specStraightOpts s⟩ : HVReq)) ∧
    (witnessDisplay.Draw allOkEnv ⟨⟨0, 0, 6, 5⟩, []⟩ []).diaReqs =
      specDiagOrder.filter (fun s => witnessDisplay.segments s) :=
  draw_order_spec witnessDisplay allOkEnv ⟨⟨0, 0, 6, 5⟩, []⟩ []
    (fun _ => rfl) (fun _ => rfl) (by decide) rfl

/-- C4: whenever Draw returns an error, the caller's canvas is exactly
as it was before the call, and a straight or diagonal rasterizer error
identifies a segment that was lit and whose request failed; a straight
failure also aborts before any diagonal request is issued. -/
theorem draw_error_spec (env : DrawEnv) (d : Display) (cvs : Canvas)
    (opts : List DispOption) :
    (∀ e : DrawErr, (d.Draw env cvs opts).err = some e →
      (d.Draw env cvs opts).cvs = cvs) ∧
    (∀ s : Segment, (d.Draw env cvs opts).err = some (.hvFail s) →
      (d.Draw env cvs opts).disp.segments s = true ∧ env.hvOk s = false ∧
      (d.Draw env cvs opts).diaReqs = []) ∧
    (∀ s : Segment, (d.Draw env cvs opts).err = some (.diaFail s) →
      (d.Draw env cvs opts).disp.segments s = true ∧ env.diaOk s = false) := by
  unfold Display.Draw
  dsimp only
  split
  · refine ⟨fun e _ => rfl, fun s hs => ?_, fun s hs => ?_⟩ <;> cases hs
  · split
    · split
      · rename_i s0 hs0
        refine ⟨fun e _ => rfl, fun s hs => ?_, fun s hs => ?_⟩
        · have hinj : s0 = s := DrawErr.hvFail.inj (Option.some.inj hs)
          subst hinj
          have hf := runHVFail env _ _ drawSegArgs _ s0 (by rw [← hs0])
          exact ⟨hf.1, hf.2, rfl⟩
        · cases hs
      · split
        · rename_i s0 hs0
          refine ⟨fun e _ => rfl, fun s hs => ?_, fun s hs => ?_⟩
          · cases hs
          · have hinj : s0 = s := DrawErr.diaFail.inj (Option.some.inj hs)
            subst hinj
            have hf := runDiaFail env _ diagSegOrder _ s0 (by rw [← hs0])
            exact ⟨hf.1, hf.2⟩
        · split
          · refine ⟨fun e _ => rfl, fun s hs => ?_, fun s hs => ?_⟩ <;> cases hs
          · refine ⟨fun e he => ?_, fun s hs => ?_, fun s hs => ?_⟩
            · cases he
            · cases hs
            · cases hs
    · refine ⟨fun e _ => rfl, fun s hs => ?_, fun s hs => ?_⟩ <;> cases hs

/-- Witness for C4 at a concrete input: with A1 lit and the A1 request
failing, Draw reports the failing segment A1, issues no diagonal
request, and leaves the caller's canvas unchanged. -/
theorem draw_error_spec_witness :
    (witnessDisplay.Draw failA1Env ⟨⟨0, 0, 6, 5⟩, []⟩ []).cvs = ⟨⟨0, 0, 6, 5⟩, []⟩ ∧
    (witnessDisplay.Draw failA1Env ⟨⟨0, 0, 6, 5⟩, []⟩ []).disp.segments A1 = true ∧
    failA1Env.hvOk A1 = false ∧
    (witnessDisplay.Draw failA1Env ⟨⟨0, 0, 6, 5⟩, []⟩ []).diaReqs = [] :=
  ⟨(draw_error_spec failA1Env witnessDisplay ⟨⟨0, 0, 6, 5⟩, []⟩ []).1
      (.hvFail A1) (by decide),
   (draw_error_spec failA1Env witnessDisplay ⟨⟨0, 0, 6, 5⟩, []⟩ []).2.1
      A1 (by decide)⟩

/-- Counterexample for C5: Draw does alter the Display when options are
passed — drawing with a cell-options option on a fresh display leaves
the display different from what it was before the call. -/
theorem draw_alters_display_counterexample :
    ((New []).Draw allOkEnv ⟨⟨0, 0, 6, 5⟩, []⟩ [.CellOpts [1]]).disp ≠ New [] := by
  intro h
  exact absurd (congrArg Display.cellOpts h) (by decide)

/-- C5 amended: Draw never alters the Display's segment state, and a
Draw call with no options leaves the Display entirely unchanged;
options passed to Draw update only the Display's styling options. -/
theorem draw_preserves_segments (d : Display) (env : DrawEnv) (cvs : Canvas)
    (opts : List DispOption) :
    (d.Draw env cvs opts).disp.segments = d.segments ∧
    (opts = [] → (d.Draw env cvs opts).disp = d) := by
  constructor
  · rw [drawDisp, optsFoldSegments]
  · intro h
    subst h
    rw [drawDisp]
    rfl

/-- Witness for C5's amended claim at a concrete input: a no-option Draw
call on a concrete display returns the display unchanged. -/
theorem draw_preserves_segments_witness :
    (witnessDisplay.Draw allOkEnv ⟨⟨0, 0, 6, 5⟩, []⟩ []).disp.segments =
      witnessDisplay.segments ∧
    (witnessDisplay.Draw allOkEnv ⟨⟨0, 0, 6, 5⟩, []⟩ []).disp = witnessDisplay :=
  ⟨(draw_preserves_segments witnessDisplay allOkEnv ⟨⟨0, 0, 6, 5⟩, []⟩ []).1,
   (draw_preserves_segments witnessDisplay allOkEnv ⟨⟨0, 0, 6, 5⟩, []⟩ []).2 rfl⟩

end OrchestratorTheorems

end Sixteen
